import Mathlib

/-!
Verification of the grant-cardone-downloads scripts.

Shallow embedding of the Python scripts in `src/grant-cardone-downloads/`
(`grant_cardone_downloader.py`, `QUICK_START.py`, `GRANT_CARDONE_MASTER.py`,
`interactive_extractor.py`, `stage2_automated_scraper.py`,
`advanced_extractor.py`) together with proofs about the embedded code.

Conventions used throughout:
* Python strings are Lean `String`s; character-level reasoning is done on
  `List Char` (the `.data` of a string).
* The regex classes `\w` and `\s` of Python's `re` module are Unicode-aware.
  The sanitizer is therefore embedded parametrically in two character
  predicates `isW` (word character) and `isS` (whitespace); theorems about
  the sanitizer quantify over these predicates, and the concrete ASCII
  fragments `isWordCharA` / `isSpaceCharA` are used for evaluation.
* Exceptions that the Python code can raise are made explicit with
  `Except PyExc`; a code path that cannot raise is a total function.
* Calls to `subprocess.run` / `time.sleep` are recorded as events (`Ev`) in
  a trace; the exit status / hang behaviour of an external process is an
  oracle argument (`Nat → Nat` exit codes, or `Nat → Outcome` when a
  `timeout=` argument makes `TimeoutExpired` possible).
-/

/-- Exceptions relevant to the modelled code paths. -/
inductive PyExc where
  | keyError
  | timeoutExpired
  deriving DecidableEq, Repr

/-! ## Filename sanitization

All scripts share the two-step sanitizer
(`grant_cardone_downloader.py` lines 208-209, `QUICK_START.py` lines 174-175,
`GRANT_CARDONE_MASTER.py` lines 179-180, `interactive_extractor.py`
lines 125-126, `stage2_automated_scraper.py` lines 377-378,
`advanced_extractor.py` lines 434-435):

    safe_title = re.sub(r'[^\w\s-]', '', title).strip()
    safe_title = re.sub(r'[-\s]+', '-', safe_title)
-/

/-- The character class `[\w\s-]`: characters kept by the first
`re.sub(r'[^\w\s-]', '', title)` pass. -/
def keepClass (isW isS : Char → Bool) (c : Char) : Bool :=
  isW c || isS c || c = '-'

/-- Embedding of `re.sub(r'[^\w\s-]', '', s)`: delete every character outside `[\w\s-]`. -/
def subNonWord (isW isS : Char → Bool) (s : List Char) : List Char :=
  s.filter (keepClass isW isS)

/-- Python `str.strip()`: remove leading and trailing whitespace. -/
def pyStrip (isS : Char → Bool) (s : List Char) : List Char :=
  ((s.dropWhile isS).reverse.dropWhile isS).reverse

/-- The character class `[-\s]` of the second `re.sub` pass. -/
def isDash (isS : Char → Bool) (c : Char) : Bool :=
  isS c || c = '-'

/-- Embedding of `re.sub(r'[-\s]+', '-', s)`: each maximal run of `[-\s]` characters is
replaced by a single `'-'`.  The Boolean flag records whether the scan is
currently inside such a run (in which case further run characters are
swallowed). -/
def collapseRuns (isS : Char → Bool) : Bool → List Char → List Char
  | _, [] => []
  | inRun, c :: rest =>
    if isDash isS c then
      if inRun then collapseRuns isS true rest
      else '-' :: collapseRuns isS true rest
    else c :: collapseRuns isS false rest

/-- The full two-step sanitizer applied to the characters of a title. -/
def sanitizeChars (isW isS : Char → Bool) (s : List Char) : List Char :=
  collapseRuns isS false (pyStrip isS (subNonWord isW isS s))

/-- ASCII fragment of Python's regex class `\w` (`[A-Za-z0-9_]`); Python's
class additionally matches non-ASCII word characters, which is why the
sanitizer theorems are parametric in the word-character predicate. -/
def isWordCharA (c : Char) : Bool :=
  c.isAlpha || c.isDigit || c = '_'

/-- ASCII fragment of Python's regex class `\s`
(space, tab, newline, carriage return, vertical tab, form feed). -/
def isSpaceCharA (c : Char) : Bool :=
  c = ' ' || c = '\t' || c = '\n' || c = '\r' || c = '\x0b' || c = '\x0c'

/-- The `safe_title` value computed with the ASCII character classes, on `List Char`. -/
def safeTitleChars (s : String) : List Char :=
  sanitizeChars isWordCharA isSpaceCharA s.data

/-- The `safe_title` value as a string-to-string function (ASCII character classes). -/
def safeTitle (s : String) : String :=
  String.mk (safeTitleChars s)

/-- Python `f"{i:03d}"`: zero-pad a natural number to (at least) 3 digits. -/
def pad3 (n : Nat) : String :=
  if n < 10 then "00" ++ toString n
  else if n < 100 then "0" ++ toString n
  else toString n

/-! ### Character-level lemmas about the sanitizer -/

theorem mem_collapseRuns {isS : Char → Bool} {b : Bool} {l : List Char}
    {c : Char} (h : c ∈ collapseRuns isS b l) :
    c = '-' ∨ (isDash isS c = false ∧ c ∈ l) := by
  induction l generalizing b with
  | nil => simp [collapseRuns] at h
  | cons a rest ih =>
    by_cases hd : isDash isS a
    · cases b with
      | true =>
        simp only [collapseRuns, hd, if_true] at h
        rcases ih h with h' | ⟨h1, h2⟩
        · exact Or.inl h'
        · exact Or.inr ⟨h1, List.mem_cons_of_mem _ h2⟩
      | false =>
        simp only [collapseRuns, hd, if_true] at h
        rcases List.mem_cons.mp h with h' | h'
        · exact Or.inl h'
        · rcases ih h' with h'' | ⟨h1, h2⟩
          · exact Or.inl h''
          · exact Or.inr ⟨h1, List.mem_cons_of_mem _ h2⟩
    · simp only [collapseRuns, hd, if_false] at h
      rcases List.mem_cons.mp h with h' | h'
      · subst h'
        exact Or.inr ⟨by simpa using hd, List.mem_cons_self _ _⟩
      · rcases ih h' with h'' | ⟨h1, h2⟩
        · exact Or.inl h''
        · exact Or.inr ⟨h1, List.mem_cons_of_mem _ h2⟩

theorem mem_pyStrip {isS : Char → Bool} {l : List Char} {c : Char}
    (h : c ∈ pyStrip isS l) : c ∈ l := by
  unfold pyStrip at h
  rw [List.mem_reverse] at h
  have h2 := (List.dropWhile_sublist isS).mem h
  rw [List.mem_reverse] at h2
  exact (List.dropWhile_sublist isS).mem h2

theorem mem_subNonWord {isW isS : Char → Bool} {l : List Char} {c : Char}
    (h : c ∈ subNonWord isW isS l) : keepClass isW isS c = true ∧ c ∈ l := by
  unfold subNonWord at h
  exact ⟨List.of_mem_filter h, List.mem_of_mem_filter h⟩

/-- Every character surviving the sanitizer is a hyphen or a kept
word character that is neither whitespace nor a hyphen. -/
theorem mem_sanitizeChars {isW isS : Char → Bool} {s : List Char} {c : Char}
    (h : c ∈ sanitizeChars isW isS s) :
    c = '-' ∨ (isW c = true ∧ isS c = false ∧ c ≠ '-') := by
  rcases mem_collapseRuns h with h' | ⟨hdash, hmem⟩
  · exact Or.inl h'
  · have hkeep := (mem_subNonWord (mem_pyStrip hmem)).1
    simp only [isDash, Bool.or_eq_false_iff, decide_eq_false_iff_not] at hdash
    simp only [keepClass, Bool.or_eq_true, decide_eq_true_eq] at hkeep
    rcases hkeep with ((hw | hs) | hh)
    · exact Or.inr ⟨hw, hdash.1, hdash.2⟩
    · exact absurd hs (by simp [hdash.1])
    · exact absurd hh hdash.2

/-- No two adjacent characters of the list are both in the `[-\s]` class. -/
def noAdjDash (isS : Char → Bool) : List Char → Bool
  | [] => true
  | [_] => true
  | a :: b :: r => !(isDash isS a && isDash isS b) && noAdjDash isS (b :: r)

theorem noAdjDash_tail {isS : Char → Bool} {a : Char} {l : List Char}
    (h : noAdjDash isS (a :: l) = true) : noAdjDash isS l = true := by
  cases l with
  | nil => rfl
  | cons b r =>
    simpa [noAdjDash, Bool.and_eq_true] using And.right (by
      simpa [noAdjDash, Bool.and_eq_true] using h)

/-- Running `collapseRuns` in swallow mode never emits a run character first. -/
theorem collapseRuns_true_head {isS : Char → Bool} :
    ∀ l : List Char, collapseRuns isS true l = [] ∨
      ∃ c r, collapseRuns isS true l = c :: r ∧ isDash isS c = false := by
  intro l
  induction l with
  | nil => exact Or.inl rfl
  | cons a rest ih =>
    by_cases hd : isDash isS a
    · simpa [collapseRuns, hd] using ih
    · exact Or.inr ⟨a, collapseRuns isS false rest,
        by simp [collapseRuns, hd], by simpa using hd⟩

/-- The output of `collapseRuns` has no two adjacent `[-\s]` characters. -/
theorem noAdjDash_collapseRuns {isS : Char → Bool} :
    ∀ (b : Bool) (l : List Char), noAdjDash isS (collapseRuns isS b l) = true := by
  intro b l
  induction l generalizing b with
  | nil => cases b <;> rfl
  | cons a rest ih =>
    by_cases hd : isDash isS a
    · cases b with
      | true => simpa [collapseRuns, hd] using ih true
      | false =>
        simp only [collapseRuns, hd, if_true]
        rcases @collapseRuns_true_head isS rest with hE | ⟨c, r, hE, hc⟩
        · rw [hE]; rfl
        · rw [hE]
          have := ih true
          rw [hE] at this
          simp [noAdjDash, hc, this]
    · simp only [collapseRuns, hd, if_false]
      cases hE : collapseRuns isS false rest with
      | nil => rfl
      | cons c r =>
        have := ih false
        rw [hE] at this
        simp only [noAdjDash, Bool.and_eq_true, Bool.not_eq_true',
          Bool.and_eq_false_iff, this, and_true]
        exact Or.inl (by simpa using hd)

theorem dropWhile_eq_self_of {p : Char → Bool} {l : List Char}
    (h : ∀ c ∈ l, p c = false) : l.dropWhile p = l := by
  cases l with
  | nil => rfl
  | cons a r => simp [List.dropWhile_cons, h a (List.mem_cons_self a r)]

theorem pyStrip_eq_self_of {isS : Char → Bool} {l : List Char}
    (h : ∀ c ∈ l, isS c = false) : pyStrip isS l = l := by
  unfold pyStrip
  rw [dropWhile_eq_self_of h, dropWhile_eq_self_of (by
    intro c hc
    exact h c (List.mem_reverse.mp hc)), List.reverse_reverse]

theorem subNonWord_eq_self_of {isW isS : Char → Bool} {l : List Char}
    (h : ∀ c ∈ l, keepClass isW isS c = true) : subNonWord isW isS l = l := by
  unfold subNonWord
  exact List.filter_eq_self.mpr h

/-- On a list without whitespace and without adjacent hyphens,
run collapsing is the identity. -/
theorem collapseRuns_eq_self_of {isS : Char → Bool} {l : List Char}
    (hs : ∀ c ∈ l, isS c = false) (hadj : noAdjDash isS l = true) :
    collapseRuns isS false l = l := by
  induction l with
  | nil => rfl
  | cons a rest ih =>
    have hsa := hs a (List.mem_cons_self a rest)
    have hrest : ∀ c ∈ rest, isS c = false := fun c hc =>
      hs c (List.mem_cons_of_mem a hc)
    by_cases hd : isDash isS a
    · have ha : a = '-' := by
        simp only [isDash, hsa, Bool.false_or, decide_eq_true_eq] at hd
        exact hd
      have htail : collapseRuns isS true rest = rest := by
        cases rest with
        | nil => rfl
        | cons b r =>
          have hb : isDash isS b = false := by
            have := hadj
            simp only [noAdjDash, Bool.and_eq_true, Bool.not_eq_true',
              Bool.and_eq_false_iff] at this
            rcases this.1 with h' | h'
            · exact absurd h' (by simp [hd])
            · exact h'
          simp only [collapseRuns, hb, if_false]
          have := ih hrest (noAdjDash_tail hadj)
          simp only [collapseRuns, hb, if_false] at this
          exact this
      subst ha
      simp [collapseRuns, hd, htail]
    · have := ih hrest (noAdjDash_tail hadj)
      simp [collapseRuns, hd, this]

/-- On an already-sanitized list (sanitizer output shape), the whole
sanitizer is the identity. -/
theorem sanitizeChars_eq_self_of {isW isS : Char → Bool} {l : List Char}
    (hs : ∀ c ∈ l, isS c = false)
    (hk : ∀ c ∈ l, keepClass isW isS c = true)
    (hadj : noAdjDash isS l = true) :
    sanitizeChars isW isS l = l := by
  unfold sanitizeChars
  rw [subNonWord_eq_self_of hk, pyStrip_eq_self_of hs,
    collapseRuns_eq_self_of hs hadj]

theorem sanitizeChars_no_space {isW isS : Char → Bool}
    (hd : isS '-' = false) {s : List Char} :
    ∀ c ∈ sanitizeChars isW isS s, isS c = false := by
  intro c hc
  rcases mem_sanitizeChars hc with h | ⟨_, h2, _⟩
  · rw [h]; exact hd
  · exact h2

theorem sanitizeChars_keep {isW isS : Char → Bool} {s : List Char} :
    ∀ c ∈ sanitizeChars isW isS s, keepClass isW isS c = true := by
  intro c hc
  rcases mem_sanitizeChars hc with h | ⟨h1, _, _⟩
  · simp [keepClass, h]
  · simp [keepClass, h1]

theorem sanitizeChars_noAdjDash {isW isS : Char → Bool} {s : List Char} :
    noAdjDash isS (sanitizeChars isW isS s) = true :=
  noAdjDash_collapseRuns false _

/-- C1 (as stated in the claim): after sanitization only characters from
`[A-Za-z0-9-]` survive.  Refuted: the regex class `\w` keeps underscores,
so the underscore of the title `"Video_1"` survives both passes. -/
theorem C1_claimed_class_counterexample :
    '_' ∈ safeTitleChars "Video_1" ∧
      '_'.isAlpha = false ∧ '_'.isDigit = false ∧ '_' ≠ '-' := by
  decide

/-- C1 (amended): for any word-character and whitespace classes with the
hyphen not whitespace, every character of the sanitized stem is either a
word character or a hyphen, and no whitespace character survives; but word
characters include the underscore (and, in Python, non-ASCII word
characters), so the output alphabet is `[\w-]`, not `[A-Za-z0-9-]`. -/
theorem C1_sanitizer_output_class (isW isS : Char → Bool)
    (hd : isS '-' = false) (title : List Char) :
    ∀ c ∈ sanitizeChars isW isS title,
      ((isW c = true ∨ c = '-') ∧ isS c = false) := by
  intro c hc
  rcases mem_sanitizeChars hc with h | ⟨h1, h2, _⟩
  · exact ⟨Or.inr h, h ▸ hd⟩
  · exact ⟨Or.inl h1, h2⟩

theorem C1_sanitizer_output_class_witness :
    isSpaceCharA '-' = false ∧
      ∀ c ∈ safeTitleChars "Hello, World!",
        ((isWordCharA c = true ∨ c = '-') ∧ isSpaceCharA c = false) :=
  ⟨by decide,
    C1_sanitizer_output_class isWordCharA isSpaceCharA (by decide)
      ("Hello, World!".data)⟩

/-- C8: the sanitizer is deterministic (it is a function: equal titles give
equal stems) and idempotent: re-applying the two-step sanitization to its
own output returns the output unchanged. -/
theorem C8_sanitizer_deterministic_idempotent (isW isS : Char → Bool)
    (hd : isS '-' = false) :
    (∀ s t : List Char, s = t →
        sanitizeChars isW isS s = sanitizeChars isW isS t) ∧
    (∀ s : List Char,
        sanitizeChars isW isS (sanitizeChars isW isS s) =
          sanitizeChars isW isS s) := by
  refine ⟨fun s t h => by rw [h], fun s => ?_⟩
  exact sanitizeChars_eq_self_of (sanitizeChars_no_space hd)
    sanitizeChars_keep sanitizeChars_noAdjDash

theorem C8_sanitizer_deterministic_idempotent_witness :
    isSpaceCharA '-' = false ∧
      sanitizeChars isWordCharA isSpaceCharA
          (safeTitleChars "  Hello -- World!  ") =
        safeTitleChars "  Hello -- World!  " :=
  ⟨by decide,
    (C8_sanitizer_deterministic_idempotent isWordCharA isSpaceCharA
      (by decide)).2 ("  Hello -- World!  ".data)⟩

/-! ## Video records, JSON documents, and subprocess traces -/

/-- A video record as read from JSON by the url-keyed scripts; each field is
`some v` exactly when the corresponding key is present in the JSON object. -/
structure JVideo where
  url : Option String := none
  title : Option String := none
  vtype : Option String := none
  deriving DecidableEq, Repr

/-- The test `video.get('type') == 'lesson-link'` (interactive_extractor line 132). -/
def isLesson (v : JVideo) : Bool :=
  v.vtype == some "lesson-link"

/-- An item of `video_data.json` as iterated by `process_video_data`
(grant_cardone_downloader lines 202-217): a JSON object with optional
src/title/type keys, or any non-dict JSON value (skipped by the
`isinstance(item, dict)` guard). -/
inductive JItem where
  | dict (src title vtype : Option String)
  | nondict
  deriving DecidableEq, Repr

/-- A processed video record (grant_cardone_downloader lines 212-217). -/
structure PVideo where
  title : String
  filename : String
  url : String
  vtype : String
  deriving DecidableEq, Repr

/-- One iteration of `process_video_data` (grant_cardone_downloader
lines 202-217): non-dicts are skipped; missing titles default to
`f'Video {len(processed_videos) + 1}'`; `src = item.get('src', '')` and the
record is appended only `if src:` (non-empty). -/
def processStep (acc : List PVideo) (item : JItem) : List PVideo :=
  match item with
  | .nondict => acc
  | .dict src? title? vtype? =>
    let title := title?.getD ("Video " ++ toString (acc.length + 1))
    let src := src?.getD ""
    let safe := safeTitle title
    if src ≠ "" then
      acc ++ [{ title := title,
                filename := pad3 (acc.length + 1) ++ "-" ++ safe,
                url := src,
                vtype := vtype?.getD "unknown" }]
    else acc

/-- Embedding of `process_video_data` (grant_cardone_downloader lines 198-219). -/
def process_video_data (items : List JItem) : List PVideo :=
  items.foldl processStep []

/-- Whether an item carries a usable (present and non-empty) `src` value. -/
def hasUsableSrc (item : JItem) : Bool :=
  match item with
  | .dict src? _ _ => src?.getD "" ≠ ""
  | .nondict => false

/-- One iteration of the aria2c input-file loop shared (textually) by
QUICK_START.download_with_aria2c (lines 172-179) and
GrantCardoneMaster.create_aria2_input_file (lines 177-186): title defaults
to `f'Video {i}'` (1-based `i`), the sanitized filename is
`f"{i:03d}-{safe_title}"`, and `video['url']` raises KeyError when the key
is missing. -/
def quickEntry (i : Nat) (v : JVideo) : Except PyExc (String × String) :=
  let title := v.title.getD ("Video " ++ toString i)
  let filename := pad3 i ++ "-" ++ safeTitle title
  match v.url with
  | none => Except.error PyExc.keyError
  | some u => Except.ok (u, filename)

def quickEntriesFrom : Nat → List JVideo → Except PyExc (List (String × String))
  | _, [] => Except.ok []
  | i, v :: rest =>
    match quickEntry i v with
    | .error e => .error e
    | .ok p =>
      match quickEntriesFrom (i + 1) rest with
      | .error e => .error e
      | .ok ps => .ok (p :: ps)

/-- The per-record (url, filename) pairs of the aria2c input file, with the
1-based enumeration of the source loops. -/
def quick_entries (videos : List JVideo) :
    Except PyExc (List (String × String)) :=
  quickEntriesFrom 1 videos

/-- Text QUICK_START writes to aria2_downloads.txt per record
(lines 178-180): the URL line, the `  out=` line, a blank separator line. -/
def quickRecordText (p : String × String) : String :=
  p.1 ++ "\n" ++ "  out=" ++ p.2 ++ ".%(ext)s\n" ++ "\n"

/-- Text GRANT_CARDONE_MASTER.create_aria2_input_file writes per record
(lines 184-186).  The source writes the literal `"\nn"` at the end of the
`  out=` f-string, leaving a stray line holding just `n` before the blank
separator line. -/
def masterRecordText (p : String × String) : String :=
  p.1 ++ "\n" ++ "  out=" ++ p.2 ++ ".%(ext)s\nn" ++ "\n"

/-- The full aria2_downloads.txt content written by QUICK_START. -/
def quick_input_file (videos : List JVideo) : Except PyExc String :=
  (quick_entries videos).map (fun es => String.join (es.map quickRecordText))

/-- The full aria2_downloads.txt content written by
GrantCardoneMaster.create_aria2_input_file (lines 172-189). -/
def master_input_file (videos : List JVideo) : Except PyExc String :=
  (quick_entries videos).map (fun es => String.join (es.map masterRecordText))

/-- The full aria2_downloads.txt content written by
AutomatedScraper.download_with_aria2c (stage2 lines 373-386); its
`out=` directive is `os.path.basename` of the joined path, i.e. the same
`{filename}.%(ext)s` text as QUICK_START's. -/
def stage2_input_file (videos : List JVideo) : Except PyExc String :=
  (quick_entries videos).map (fun es => String.join (es.map quickRecordText))

/-- The static aria2.conf content written by QuickStart.setup_aria2c
(QUICK_START lines 107-126), a pure function of the download directory. -/
def quickAria2Conf (downloadDirAbs : String) : String :=
  "# Grant Cardone Ultra-Fast Configuration\n" ++
  "max-concurrent-downloads=16\nsplit=16\nmin-split-size=1M\n" ++
  "max-connection-per-server=16\npiece-length=1M\ncontinue=true\n" ++
  "max-tries=5\nretry-wait=30\ntimeout=600\nconnect-timeout=60\n" ++
  "allow-overwrite=true\nfile-allocation=trunc\n" ++
  "dir=" ++ downloadDirAbs ++ "\n" ++
  "log-level=notice\nshow-console-readout=true\ndisk-cache=64M\n" ++
  "enable-http-keep-alive=true\nenable-http-pipelining=true\n"

/-- An external-process invocation: the argument list handed to
`subprocess.run` and the `timeout=` keyword argument (in seconds), if any. -/
structure Call where
  args : List String
  timeoutSec : Option Nat
  deriving DecidableEq, Repr

/-- Observable actions of a download loop: a subprocess invocation, a fixed
`time.sleep(secs)`, or a `random.uniform(lo, hi)` sleep. -/
inductive Ev where
  | call (c : Call)
  | sleepFix (secs : Nat)
  | sleepRand (lo hi : Nat)
  deriving DecidableEq, Repr

/-- The subprocess invocations of a trace, in order. -/
def callsOf (evs : List Ev) : List Call :=
  evs.filterMap (fun e => match e with | .call c => some c | _ => none)

/-- The aria2c invocation of QUICK_START.download_with_aria2c
(lines 188-198); `subprocess.run(cmd, cwd=self.base_dir)` has no timeout. -/
def quickAria2Call : Call :=
  { args := ["aria2c", "--conf-path=aria2.conf",
             "--input-file=aria2_downloads.txt",
             "--show-console-readout=true", "--summary-interval=30",
             "--human-readable=true"],
    timeoutSec := none }

/-- The aria2c download stage of QUICK_START (lines 169-198): write the
input file, then spawn aria2c exactly once for the whole batch. -/
def quick_download_stage (videos : List JVideo) :
    Except PyExc (String × List Ev) :=
  (quick_input_file videos).map (fun content => (content, [Ev.call quickAria2Call]))

/-- Split a character list at newline characters, as Python's
`str.split('\n')` (a trailing newline yields a final empty line). -/
def splitNL : List Char → List (List Char)
  | [] => [[]]
  | c :: r =>
    if c = '\n' then [] :: splitNL r
    else
      match splitNL r with
      | [] => [[c]]
      | l :: ls => (c :: l) :: ls

/-- The lines of a text file's content. -/
def linesOf (s : String) : List String :=
  (splitNL s.data).map String.mk

/-- The state of a JSON file on disk, as far as the loading code
distinguishes it: absent (`FileNotFoundError` / failed existence check),
malformed (`json.load` raises `JSONDecodeError`), or a parsed document. -/
inductive FileSt (α : Type) where
  | absent
  | badJSON
  | doc (d : α)
  deriving DecidableEq, Repr

/-- Result of a load-and-check step: a graceful "no videos" report (with
the printed diagnostic) or the loaded video list. -/
inductive LoadRes where
  | noVideos (msg : String)
  | got (videos : List JVideo)
  deriving DecidableEq, Repr

/-- QUICK_START.download_with_aria2c lines 139-164: prefer
grantcardone_complete.json over grantcardone_videos.json; report and return
on a missing file, on malformed JSON (caught `JSONDecodeError` /
`FileNotFoundError`), and on an empty `videos` list. -/
def quick_load (complete videos_ : FileSt (List JVideo)) :
    Except PyExc LoadRes :=
  let pick : Option (FileSt (List JVideo)) :=
    if complete ≠ FileSt.absent then some complete
    else if videos_ ≠ FileSt.absent then some videos_
    else none
  match pick with
  | none => .ok (.noVideos "No video data file found. Complete Steps 1 and 2 first.")
  | some .badJSON => .ok (.noVideos "Invalid video data file")
  | some .absent => .ok (.noVideos "Invalid video data file")
  | some (.doc vs) =>
    if vs.isEmpty then .ok (.noVideos "No videos found in data file")
    else .ok (.got vs)

/-- interactive_extractor.download_collected_videos lines 90-108: prefer
grantcardone_videos.json over found_videos.json; the whole body sits in a
`try` whose handlers catch `FileNotFoundError` and `JSONDecodeError`; an
empty list is reported and the function returns. -/
def inter_load (gv fv : FileSt (List JVideo)) : Except PyExc LoadRes :=
  let pick : Option (FileSt (List JVideo)) :=
    if gv ≠ FileSt.absent then some gv
    else if fv ≠ FileSt.absent then some fv
    else none
  match pick with
  | none => .ok (.noVideos "No video data file found")
  | some .badJSON => .ok (.noVideos "Invalid JSON in found_videos.json")
  | some .absent => .ok (.noVideos "found_videos.json not found")
  | some (.doc vs) =>
    if vs.isEmpty then .ok (.noVideos "No videos found in found_videos.json")
    else .ok (.got vs)

/-- AutomatedScraper.load_complete_data (stage2 lines 413-426): a missing
file and malformed JSON are each caught, reported, and mapped to `[]`; the
caller (`run`, lines 434-439) treats `[]` as "no videos" and shows the
extraction instructions instead of downloading. -/
def load_complete_data (f : FileSt (List JVideo)) :
    Except PyExc (List JVideo) :=
  match f with
  | .absent => .ok []
  | .badJSON => .ok []
  | .doc vs => .ok vs

/-- One round of GrantCardoneMaster.check_stage2_complete's file loop
(lines 157-167): a missing file is skipped, `JSONDecodeError` is caught and
skipped (`pass`), and only a non-empty `videos` list is returned. -/
def checkOneFile (f : FileSt (List JVideo)) : Option (List JVideo) :=
  match f with
  | .absent => none
  | .badJSON => none
  | .doc vs => if vs.isEmpty then none else some vs

/-- GrantCardoneMaster.check_stage2_complete (lines 151-170): try
grantcardone_complete.json then grantcardone_videos.json; `none` stands for
the `return None` path that prints "Stage 2 data not found or invalid". -/
def check_stage2_complete (complete videos_ : FileSt (List JVideo)) :
    Except PyExc (Option (List JVideo)) :=
  match checkOneFile complete with
  | some vs => .ok (some vs)
  | none =>
    match checkOneFile videos_ with
    | some vs => .ok (some vs)
    | none => .ok none

/-- The tail of GrantCardoneDownloader.extract_videos_manually
(lines 186-196): load video_data.json (a bare JSON array); a missing file
and malformed JSON are each caught and mapped to `[]`; otherwise the parsed
items go through `process_video_data`. -/
def gcd_manual_load (f : FileSt (List JItem)) : Except PyExc (List PVideo) :=
  match f with
  | .absent => .ok []
  | .badJSON => .ok []
  | .doc items => .ok (process_video_data items)

/-- The yt-dlp argument list of GrantCardoneDownloader.download_video
(lines 232-243); `subprocess.run(cmd, capture_output=True, text=True,
check=True)` (line 246) passes no `timeout=`. -/
def gcdCmd (downloadDir : String) (v : PVideo) : Call :=
  { args := ["yt-dlp", "--no-warnings", "--embed-metadata",
             "--embed-thumbnail", "--write-subtitles", "--write-auto-subs",
             "--sub-langs", "en",
             "--output", downloadDir ++ "/" ++ v.filename ++ ".%(ext)s",
             "--format", "best[height<=1080]", v.url],
    timeoutSec := none }

/-- GrantCardoneDownloader.download_all_videos (lines 254-285): one
download_video call per record; exit 0 counts as successful, a non-zero
exit raises `CalledProcessError` (because of `check=True`), is caught in
download_video, and counts as failed; `time.sleep(1)` follows every
attempt.  No timeout is passed, so the outcome oracle is an exit code per
invocation. -/
def gcdLoop (downloadDir : String) (res : Nat → Nat) :
    Nat → List PVideo → List Ev × Nat × Nat
  | _, [] => ([], 0, 0)
  | k, v :: rest =>
    let r := gcdLoop downloadDir res (k + 1) rest
    (Ev.call (gcdCmd downloadDir v) :: Ev.sleepFix 1 :: r.1,
     (if res k = 0 then r.2.1 + 1 else r.2.1),
     (if res k = 0 then r.2.2 else r.2.2 + 1))

def download_all_videos (downloadDir : String) (res : Nat → Nat)
    (videos : List PVideo) : List Ev × Nat × Nat :=
  gcdLoop downloadDir res 0 videos

/-- Outcome of an external process run under a timeout: it exits with a
code, or is still running when the timeout fires (`TimeoutExpired`). -/
inductive Outcome where
  | exit (code : Nat)
  | hang
  deriving DecidableEq, Repr

def interDir : String := "./grant-cardone-downloads"

/-- The yt-dlp invocation of interactive_extractor (lines 138-146), run
with `timeout=300` (line 150). -/
def interCmd (i : Nat) (title u : String) : Call :=
  { args := ["yt-dlp", "--no-warnings", "--embed-metadata",
             "--output",
             interDir ++ "/" ++ pad3 i ++ "-" ++ safeTitle title ++ ".%(ext)s",
             "--format", "best[height<=1080]", "--retries", "3", u],
    timeoutSec := some 300 }

/-- The main loop of interactive_extractor.download_collected_videos
(lines 117-169): `video['url']` raises KeyError when the key is missing
(the surrounding handlers catch only FileNotFoundError and
JSONDecodeError, so it escapes); records typed 'lesson-link' are skipped
with `continue` before the yt-dlp invocation and before the sleep;
otherwise one yt-dlp run is dispatched — exit 0 increments `successful`,
a non-zero exit, `TimeoutExpired`, or any other exception increments
`failed` — and `time.sleep(2)` follows.  `i` is the 1-based enumeration
index, `k` the invocation index for the outcome oracle. -/
def interLoop (res : Nat → Outcome) :
    Nat → Nat → List JVideo → Except PyExc (List Ev × Nat × Nat)
  | _, _, [] => .ok ([], 0, 0)
  | i, k, v :: rest =>
    match v.url with
    | none => .error .keyError
    | some u =>
      let title := v.title.getD ("Video " ++ toString i)
      if isLesson v then
        interLoop res (i + 1) k rest
      else
        match interLoop res (i + 1) (k + 1) rest with
        | .error e => .error e
        | .ok (tr, s, f) =>
          let evs := Ev.call (interCmd i title u) :: Ev.sleepFix 2 :: tr
          match res k with
          | .exit 0 => .ok (evs, s + 1, f)
          | .exit (_ + 1) => .ok (evs, s, f + 1)
          | .hang => .ok (evs, s, f + 1)

def download_collected_videos (res : Nat → Outcome) (videos : List JVideo) :
    Except PyExc (List Ev × Nat × Nat) :=
  interLoop res 1 0 videos

/-- A processed record of advanced_extractor, as built by
extract_videos_from_response (lines 437-444): every field is present. -/
structure APVideo where
  title : String
  filename : String
  url : String
  program : String
  descr : Option String
  deriving DecidableEq, Repr

def advDir : String := "./grant-cardone-downloads"

/-- The yt-dlp invocation of advanced_extractor.download_videos
(lines 482-502), run with `timeout=300` (line 505). -/
def advCmd (ua auth : String) (v : APVideo) : Call :=
  let outPath :=
    if v.program ≠ "" then
      advDir ++ "/" ++ v.program ++ "/" ++ v.filename ++ ".%(ext)s"
    else advDir ++ "/" ++ v.filename ++ ".%(ext)s"
  { args :=
      (["yt-dlp", "--user-agent", ua, "--cookies", "/dev/null",
        "--add-header", "Authorization: " ++ auth,
        "--no-warnings", "--embed-metadata", "--embed-thumbnail",
        "--write-subtitles", "--write-auto-subs", "--sub-langs", "en",
        "--output", outPath, "--format", "best[height<=1080]",
        "--retries", "3", "--fragment-retries", "3", v.url]
       ++ (match v.descr with
           | some d => ["--add-metadata", "--metadata", "description=" ++ d]
           | none => [])),
    timeoutSec := some 300 }

/-- advanced_extractor.download_videos loop (lines 470-518): one yt-dlp run
per record — non-zero exits and `TimeoutExpired` are caught and only
printed, there are no counters — followed by `random_delay(2, 5)`. -/
def advLoop (ua auth : String) : List APVideo → List Ev
  | [] => []
  | v :: rest =>
    Ev.call (advCmd ua auth v) :: Ev.sleepRand 2 5 :: advLoop ua auth rest

/-- A video object produced by the browser-side extractor of
create_stage2_script (stage2_automated_scraper lines 65-142). -/
structure JSVideo where
  url : String
  title : String
  source : String
  deriving DecidableEq, Repr

/-- The de-duplication of the generated Stage-2 JavaScript
(stage2_automated_scraper lines 139-141):
`pageVideos.filter((video, index, self) =>
   index === self.findIndex((v) => v.url === video.url))` —
keep an element exactly when its index equals the first index holding an
element with the *same URL string*. -/
def dedupByUrl (l : List JSVideo) : List JSVideo :=
  (l.enum.filter
    (fun p => l.findIdx (fun w => w.url == p.2.url) == p.1)).map Prod.snd

/-- The records the interactive loop actually dispatches (those not typed
'lesson-link'). -/
def nonLessonCount (videos : List JVideo) : Nat :=
  (videos.filter (fun v => !isLesson v)).length

/-- Number of non-zero exit codes among invocations `start … start+n-1`. -/
def countFailN (res : Nat → Nat) : Nat → Nat → Nat
  | _, 0 => 0
  | start, n + 1 => (if res start = 0 then 0 else 1) + countFailN res (start + 1) n

def isFailO (o : Outcome) : Bool :=
  match o with
  | .exit 0 => false
  | _ => true

/-- Number of failing outcomes (non-zero exit or timeout) among invocations
`start … start+n-1`. -/
def countFailO (res : Nat → Outcome) : Nat → Nat → Nat
  | _, 0 => 0
  | start, n + 1 =>
    (if isFailO (res start) then 1 else 0) + countFailO res (start + 1) n

/-! ## Claim theorems for the aria2c path and the loaders -/

/-- C2 (code evaluation at the failing input): on the single record
`{'url': 'http://x/a.mp4', 'title': 'A'}` QUICK_START's aria2c stage writes
exactly the URL line, one `  out=` line and a blank separator line and then
spawns aria2c once, but GRANT_CARDONE_MASTER's `create_aria2_input_file`
writes a stray line holding just `n` between the `  out=` line and the
blank separator (its source ends the out f-string with the literal `\nn`),
contradicting the claimed exact URL / out / blank record shape. -/
theorem C2_master_writes_stray_line :
    quick_download_stage [{ url := some "http://x/a.mp4", title := some "A" }] =
      .ok ("http://x/a.mp4\n  out=001-A.%(ext)s\n\n", [Ev.call quickAria2Call]) ∧
    master_input_file [{ url := some "http://x/a.mp4", title := some "A" }] =
      .ok "http://x/a.mp4\n  out=001-A.%(ext)s\nn\n" ∧
    linesOf "http://x/a.mp4\n  out=001-A.%(ext)s\nn\n" =
      ["http://x/a.mp4", "  out=001-A.%(ext)s", "n", ""] ∧
    linesOf "http://x/a.mp4\n  out=001-A.%(ext)s\n\n" =
      ["http://x/a.mp4", "  out=001-A.%(ext)s", "", ""] ∧
    stage2_input_file [{ url := some "http://x/a.mp4", title := some "A" }] =
      .ok "http://x/a.mp4\n  out=001-A.%(ext)s\n\n" ∧
    "max-concurrent-downloads=16" ∈ linesOf (quickAria2Conf "D") ∧
    "max-tries=5" ∈ linesOf (quickAria2Conf "D") ∧
    "timeout=600" ∈ linesOf (quickAria2Conf "D") := by
  refine ⟨?_, ?_, ?_, ?_, ?_, ?_, ?_, ?_⟩ <;> first | rfl | decide

/-- C9: a document of shape `{"videos": [v]}` with one url-carrying record
loads to exactly that one record and yields exactly one download entry,
whose generated filename begins with `001-`. -/
theorem C9_single_record_one_entry (u : String) (t : Option String)
    (g : FileSt (List JVideo)) :
    quick_load (.doc [{ url := some u, title := t }]) g =
      .ok (.got [{ url := some u, title := t }]) ∧
    quick_entries [{ url := some u, title := t }] =
      .ok [(u, "001-" ++ safeTitle (t.getD "Video 1"))] := by
  constructor
  · rfl
  · show quickEntriesFrom 1 [{ url := some u, title := t }] = _
    have h1 : ("Video " ++ toString 1 : String) = "Video 1" := rfl
    simp only [quickEntriesFrom, quickEntry, h1]
    have h2 : (pad3 1 ++ "-" : String) = "001-" := rfl
    rw [show pad3 1 ++ "-" ++ safeTitle (t.getD "Video 1") =
      "001-" ++ safeTitle (t.getD "Video 1") from by rw [h2]]

/-- A video-data file in one of the three degenerate states of the claim:
missing, malformed JSON, or an empty videos list. -/
def degenerateV (f : FileSt (List JVideo)) : Prop :=
  f = .absent ∨ f = .badJSON ∨ f = .doc []

/-- A video_data.json file (bare item array) in one of the three degenerate
states: missing, malformed JSON, or an empty list. -/
def degenerateI (f : FileSt (List JItem)) : Prop :=
  f = .absent ∨ f = .badJSON ∨ f = .doc []

/-- C4: for every script's video-data loading step, a missing input file,
malformed JSON, and an empty videos list are each caught and reported, and
the stage returns gracefully (`.ok`, never an uncaught exception): QUICK_START
and interactive report a "no videos" diagnostic, stage2's loader returns the
empty list (its caller then shows the extraction instructions), MASTER's
checker returns `None` ("Stage 2 data not found or invalid"), and
grant_cardone_downloader's manual loader returns the empty list (its caller
then prints "No videos found"). -/
theorem C4_degenerate_loads_graceful (f g : FileSt (List JVideo))
    (hf : degenerateV f) (hg : degenerateV g)
    (h : FileSt (List JItem)) (hh : degenerateI h) :
    (∃ m, quick_load f g = .ok (.noVideos m)) ∧
    (∃ m, inter_load f g = .ok (.noVideos m)) ∧
    load_complete_data f = .ok [] ∧
    check_stage2_complete f g = .ok none ∧
    gcd_manual_load h = .ok [] := by
  rcases hf with hf | hf | hf <;> rcases hg with hg | hg | hg <;>
    rcases hh with hh | hh | hh <;> subst hf <;> subst hg <;> subst hh <;>
    exact ⟨⟨_, rfl⟩, ⟨_, rfl⟩, rfl, rfl, rfl⟩

theorem C4_degenerate_loads_graceful_witness :
    (∃ m, quick_load .badJSON .absent = .ok (.noVideos m)) ∧
    (∃ m, inter_load .badJSON .absent = .ok (.noVideos m)) ∧
    load_complete_data .badJSON = .ok [] ∧
    check_stage2_complete .badJSON .absent = .ok none ∧
    gcd_manual_load (.doc []) = .ok [] :=
  C4_degenerate_loads_graceful .badJSON .absent
    (Or.inr (Or.inl rfl)) (Or.inl rfl) (.doc []) (Or.inr (Or.inr rfl))

/-! ## Claim theorems for URL handling -/

theorem process_foldl_url_ne {items : List JItem} {acc : List PVideo}
    (hacc : ∀ v ∈ acc, v.url ≠ "") :
    ∀ v ∈ items.foldl processStep acc, v.url ≠ "" := by
  induction items generalizing acc with
  | nil => exact hacc
  | cons it rest ih =>
    rw [List.foldl_cons]
    apply ih
    intro v hv
    cases it with
    | nondict => exact hacc v hv
    | dict s t vt =>
      simp only [processStep] at hv
      split at hv
      · rename_i hs
        rcases List.mem_append.mp hv with h | h
        · exact hacc v h
        · have hveq := List.mem_singleton.mp h
          subst hveq
          simpa using hs
      · exact hacc v hv

theorem process_foldl_length (items : List JItem) :
    ∀ acc : List PVideo,
      (items.foldl processStep acc).length =
        acc.length + (items.filter hasUsableSrc).length := by
  induction items with
  | nil => intro acc; simp
  | cons it rest ih =>
    intro acc
    rw [List.foldl_cons, ih]
    cases it with
    | nondict => simp [processStep, hasUsableSrc, List.filter_cons]
    | dict s t vt =>
      by_cases hs : s.getD "" ≠ ""
      · simp only [processStep, if_pos hs, hasUsableSrc, List.filter_cons,
          decide_eq_true_eq, hs, if_true, List.length_append,
          List.length_cons, List.length_nil]
        omega
      · simp only [processStep, if_neg hs, hasUsableSrc, List.filter_cons]
        rw [if_neg (by simpa using hs)]

theorem quickEntriesFrom_error :
    ∀ (vs : List JVideo) (i : Nat), (∃ v ∈ vs, v.url = none) →
      quickEntriesFrom i vs = .error .keyError := by
  intro vs
  induction vs with
  | nil => intro i h; simp at h
  | cons w rest ih =>
    intro i h
    cases hw : w.url with
    | none => simp [quickEntriesFrom, quickEntry, hw]
    | some u =>
      have hex : ∃ v ∈ rest, v.url = none := by
        rcases h with ⟨v, hv, hu⟩
        rcases List.mem_cons.mp hv with h' | h'
        · subst h'; rw [hw] at hu; cases hu
        · exact ⟨v, h', hu⟩
      simp [quickEntriesFrom, quickEntry, hw, ih (i + 1) hex]

theorem quickEntriesFrom_ok :
    ∀ (vs : List JVideo) (i : Nat), (∀ v ∈ vs, v.url.isSome) →
      ∃ es, quickEntriesFrom i vs = .ok es ∧ es.length = vs.length := by
  intro vs
  induction vs with
  | nil => exact fun i _ => ⟨[], rfl, rfl⟩
  | cons w rest ih =>
    intro i h
    rcases Option.isSome_iff_exists.mp (h w (List.mem_cons_self w rest)) with ⟨u, hw⟩
    rcases ih (i + 1) (fun v hv => h v (List.mem_cons_of_mem w hv)) with
      ⟨es, he, hl⟩
    refine ⟨(u, pad3 i ++ "-" ++ safeTitle (w.title.getD ("Video " ++ toString i)))
      :: es, ?_, by simp [hl]⟩
    simp [quickEntriesFrom, quickEntry, hw, he]

/-- C6 (as stated) counterexample: on the QUICK_START aria2c path a record
with no url key is not silently skipped — `video['url']` raises an uncaught
KeyError. -/
theorem C6_missing_url_raises_counterexample :
    quick_entries [{ title := some "A" }] = .error .keyError := rfl

/-- C6 (amended): grant_cardone_downloader's `process_video_data` silently
drops every item lacking a non-empty `src` and never raises (it produces
exactly one record per usably-sourced item, each with a non-empty URL);
but the QUICK_START / MASTER input-file loop accesses `video['url']`
directly, so a record without a url key raises an uncaught KeyError, and
when every record has a url key — even an empty-string one — one entry per
record is emitted (nothing is dropped). -/
theorem C6_missing_url_handling :
    (∀ items : List JItem, ∀ v ∈ process_video_data items, v.url ≠ "") ∧
    (∀ items : List JItem,
      (process_video_data items).length =
        (items.filter hasUsableSrc).length) ∧
    (∀ vs : List JVideo, (∃ v ∈ vs, v.url = none) →
      quick_entries vs = .error .keyError) ∧
    (∀ vs : List JVideo, (∀ v ∈ vs, v.url.isSome) →
      ∃ es, quick_entries vs = .ok es ∧ es.length = vs.length) := by
  refine ⟨fun items => process_foldl_url_ne (by intro v hv; cases hv),
    fun items => by simpa using process_foldl_length items [],
    fun vs h => quickEntriesFrom_error vs 1 h,
    fun vs h => quickEntriesFrom_ok vs 1 h⟩

theorem C6_missing_url_handling_witness :
    quick_entries [{ title := some "B" }, { url := some "http://x" }] =
      .error .keyError :=
  C6_missing_url_handling.2.2.1 _
    ⟨{ title := some "B" }, List.mem_cons_self _ _, rfl⟩

/-- C7: browser-side de-duplication is by exact URL string equality only —
two records whose URL strings differ in any character are both kept (no
normalization of query parameters, scheme, or trailing slash); and the
Python download paths perform no de-duplication at all: one entry is
emitted per record, so even exactly-equal duplicate URLs are all kept. -/
theorem C7_dedup_exact_url_only :
    (∀ a b : JSVideo, a.url ≠ b.url → dedupByUrl [a, b] = [a, b]) ∧
    (∀ vs : List JVideo, (∀ v ∈ vs, v.url.isSome) →
      ∃ es, quick_entries vs = .ok es ∧ es.length = vs.length) := by
  constructor
  · intro a b hne
    have hb : (a.url == b.url) = false := by
      simpa using hne
    simp [dedupByUrl, List.enum, List.enumFrom, List.findIdx_cons, hb]
  · exact fun vs h => quickEntriesFrom_ok vs 1 h

theorem C7_dedup_exact_url_only_witness :
    dedupByUrl [{ url := "http://x/a.mp4", title := "A", source := "video-element" },
        { url := "http://x/a.mp4?", title := "B", source := "video-element" }] =
      [{ url := "http://x/a.mp4", title := "A", source := "video-element" },
        { url := "http://x/a.mp4?", title := "B", source := "video-element" }] :=
  C7_dedup_exact_url_only.1 _ _ (by decide)

/-! ## Lemmas about the download loops -/

theorem gcdLoop_trace (d : String) (res : Nat → Nat) :
    ∀ (vs : List PVideo) (k : Nat),
      (gcdLoop d res k vs).1 =
        (vs.map (gcdCmd d)).flatMap (fun c => [Ev.call c, Ev.sleepFix 1]) := by
  intro vs
  induction vs with
  | nil => intro k; rfl
  | cons v rest ih =>
    intro k
    simp [gcdLoop, List.flatMap_cons, ih (k + 1)]

theorem gcdLoop_calls (d : String) (res : Nat → Nat) :
    ∀ (vs : List PVideo) (k : Nat),
      callsOf (gcdLoop d res k vs).1 = vs.map (gcdCmd d) := by
  intro vs
  induction vs with
  | nil => intro k; rfl
  | cons v rest ih =>
    intro k
    simp [gcdLoop, callsOf, List.filterMap_cons] at ih ⊢
    exact ih (k + 1)

theorem gcdLoop_counts (d : String) (res : Nat → Nat) :
    ∀ (vs : List PVideo) (k : Nat),
      (gcdLoop d res k vs).2.1 + (gcdLoop d res k vs).2.2 = vs.length ∧
      (gcdLoop d res k vs).2.2 = countFailN res k vs.length := by
  intro vs
  induction vs with
  | nil => intro k; exact ⟨rfl, rfl⟩
  | cons v rest ih =>
    intro k
    rcases ih (k + 1) with ⟨h1, h2⟩
    by_cases h0 : res k = 0 <;>
      simp [gcdLoop, countFailN, h0, h2] <;> omega

theorem nonLessonCount_cons_lesson {v : JVideo} {rest : List JVideo}
    (h : isLesson v = true) :
    nonLessonCount (v :: rest) = nonLessonCount rest := by
  simp [nonLessonCount, List.filter_cons, h]

theorem nonLessonCount_cons_not {v : JVideo} {rest : List JVideo}
    (h : isLesson v = false) :
    nonLessonCount (v :: rest) = nonLessonCount rest + 1 := by
  simp [nonLessonCount, List.filter_cons, h]

theorem interLoop_step_ok {res : Nat → Outcome} {i k : Nat} {v : JVideo}
    {u : String} {rest : List JVideo} {tr : List Ev} {s f : Nat}
    (hu : v.url = some u) (hl : isLesson v = false)
    (he : interLoop res (i + 1) (k + 1) rest = .ok (tr, s, f)) :
    interLoop res i k (v :: rest) = .ok
      (Ev.call (interCmd i (v.title.getD ("Video " ++ toString i)) u) ::
         Ev.sleepFix 2 :: tr,
       (if isFailO (res k) then s else s + 1),
       (if isFailO (res k) then f + 1 else f)) := by
  rcases hres : res k with code | _
  · cases code with
    | zero => simp [interLoop, hu, hl, he, hres, isFailO]
    | succ n => simp [interLoop, hu, hl, he, hres, isFailO]
  · simp [interLoop, hu, hl, he, hres, isFailO]

/-- Full characterization of the interactive download loop on inputs whose
records all carry a url key: it returns gracefully; lesson-links are
dispatched and counted by neither counter; every other record gets exactly
one yt-dlp invocation (exit 0 counted successful, non-zero exit or timeout
counted failed), each invocation carrying `timeout=300` and the format
selector and being followed by the fixed 2-second sleep. -/
theorem interLoop_spec (res : Nat → Outcome) :
    ∀ (vs : List JVideo) (i k : Nat), (∀ v ∈ vs, v.url.isSome) →
      ∃ tr s f, interLoop res i k vs = .ok (tr, s, f) ∧
        s + f = nonLessonCount vs ∧
        f = countFailO res k (nonLessonCount vs) ∧
        tr = (callsOf tr).flatMap (fun c => [Ev.call c, Ev.sleepFix 2]) ∧
        (callsOf tr).length = nonLessonCount vs ∧
        ∀ c ∈ callsOf tr, c.timeoutSec = some 300 ∧
          c.args[5]? = some "--format" ∧
          c.args[6]? = some "best[height<=1080]" := by
  intro vs
  induction vs with
  | nil =>
    intro i k h
    exact ⟨[], 0, 0, rfl, rfl, rfl, rfl, rfl, by intro c hc; cases hc⟩
  | cons v rest ih =>
    intro i k h
    rcases Option.isSome_iff_exists.mp (h v (List.mem_cons_self v rest)) with
      ⟨u, hu⟩
    have hrest : ∀ w ∈ rest, w.url.isSome := fun w hw =>
      h w (List.mem_cons_of_mem v hw)
    by_cases hl : isLesson v
    · rcases ih (i + 1) k hrest with ⟨tr, s, f, he, hsum, hf, htr, hlen, hprop⟩
      refine ⟨tr, s, f, ?_, ?_, ?_, htr, ?_, hprop⟩
      · simp [interLoop, hu, hl, he]
      · rw [hsum, nonLessonCount_cons_lesson hl]
      · rw [hf, nonLessonCount_cons_lesson hl]
      · rw [hlen, nonLessonCount_cons_lesson hl]
    · replace hl : isLesson v = false := by simpa using hl
      rcases ih (i + 1) (k + 1) hrest with
        ⟨tr, s, f, he, hsum, hf, htr, hlen, hprop⟩
      have hstep := interLoop_step_ok hu hl he
      have hcons : nonLessonCount (v :: rest) = nonLessonCount rest + 1 :=
        nonLessonCount_cons_not hl
      have hcalls :
          callsOf (Ev.call (interCmd i (v.title.getD ("Video " ++ toString i)) u)
              :: Ev.sleepFix 2 :: tr) =
            interCmd i (v.title.getD ("Video " ++ toString i)) u ::
              callsOf tr := by
        simp [callsOf, List.filterMap_cons]
      refine ⟨_, _, _, hstep, ?_, ?_, ?_, ?_, ?_⟩
      · rw [hcons]
        by_cases hF : isFailO (res k) <;> simp [hF] <;> omega
      · rw [hcons, countFailO]
        by_cases hF : isFailO (res k) <;> simp [hF, hf] <;> omega
      · rw [hcalls, List.flatMap_cons, ← htr]
        rfl
      · rw [hcalls, hcons]
        simp [hlen]
      · rw [hcalls]
        intro c hc
        rcases List.mem_cons.mp hc with h' | h'
        · subst h'
          exact ⟨rfl, rfl, rfl⟩
        · exact hprop c h'

theorem advLoop_trace (ua auth : String) :
    ∀ vs : List APVideo, advLoop ua auth vs =
      (vs.map (advCmd ua auth)).flatMap
        (fun c => [Ev.call c, Ev.sleepRand 2 5]) := by
  intro vs
  induction vs with
  | nil => rfl
  | cons v rest ih => simp [advLoop, List.flatMap_cons, ih]

/-- C3 (as stated) counterexample: on the grant_cardone_downloader path
the yt-dlp invocation carries no timeout at all (subprocess.run is called
without `timeout=`), so "every such invocation carries its own timeout"
fails on a concrete one-video run. -/
theorem C3_gcd_no_timeout_counterexample :
    ((callsOf (download_all_videos "./grant-cardone-videos" (fun _ => 0)
        [{ title := "T", filename := "001-T", url := "http://x/a.mp4",
           vtype := "unknown" }]).1).all
      (fun c => c.timeoutSec.isSome)) = false := by
  rfl

/-- C3 (amended): every processed record spawns exactly one yt-dlp
subprocess (on the interactive path, records typed 'lesson-link' spawn
none), each invocation carries the format selector `best[height<=1080]`;
the interactive and advanced invocations carry a 300-second timeout while
grant_cardone_downloader's carry none; and each invocation is followed by
a delay — a fixed 1-second (grant_cardone_downloader) or 2-second
(interactive) sleep, and a random 2-5-second sleep on the advanced path. -/
theorem C3_one_ytdlp_process_per_video (d ua auth : String)
    (resg : Nat → Nat) (resi : Nat → Outcome)
    (vsg : List PVideo) (vsi : List JVideo) (vsa : List APVideo)
    (hvsi : ∀ v ∈ vsi, v.url.isSome) :
    ((download_all_videos d resg vsg).1 =
        (vsg.map (gcdCmd d)).flatMap (fun c => [Ev.call c, Ev.sleepFix 1]) ∧
      (callsOf (download_all_videos d resg vsg).1).length = vsg.length ∧
      ∀ v ∈ vsg, (gcdCmd d v).timeoutSec = none ∧
        (gcdCmd d v).args[10]? = some "--format" ∧
        (gcdCmd d v).args[11]? = some "best[height<=1080]") ∧
    (∃ tr s f, download_collected_videos resi vsi = .ok (tr, s, f) ∧
      tr = (callsOf tr).flatMap (fun c => [Ev.call c, Ev.sleepFix 2]) ∧
      (callsOf tr).length = nonLessonCount vsi ∧
      ∀ c ∈ callsOf tr, c.timeoutSec = some 300 ∧
        c.args[5]? = some "--format" ∧
        c.args[6]? = some "best[height<=1080]") ∧
    (advLoop ua auth vsa =
        (vsa.map (advCmd ua auth)).flatMap
          (fun c => [Ev.call c, Ev.sleepRand 2 5]) ∧
      ∀ v ∈ vsa, (advCmd ua auth v).timeoutSec = some 300 ∧
        (advCmd ua auth v).args[16]? = some "--format" ∧
        (advCmd ua auth v).args[17]? = some "best[height<=1080]") := by
  refine ⟨⟨gcdLoop_trace d resg vsg 0, ?_, fun v _ => ⟨rfl, rfl, rfl⟩⟩,
    ?_, advLoop_trace ua auth vsa, fun v _ => ⟨rfl, rfl, rfl⟩⟩
  · rw [show (download_all_videos d resg vsg).1 = (gcdLoop d resg 0 vsg).1
      from rfl, gcdLoop_calls d resg vsg 0, List.length_map]
  · rcases interLoop_spec resi vsi 1 0 hvsi with
      ⟨tr, s, f, he, _, _, htr, hlen, hprop⟩
    exact ⟨tr, s, f, he, htr, hlen, hprop⟩

theorem C3_one_ytdlp_process_per_video_witness :
    ∃ tr s f, download_collected_videos (fun _ => Outcome.exit 0)
        [{ url := some "http://x/a.mp4", title := some "A" }] =
          .ok (tr, s, f) ∧
      tr = (callsOf tr).flatMap (fun c => [Ev.call c, Ev.sleepFix 2]) ∧
      (callsOf tr).length =
        nonLessonCount [{ url := some "http://x/a.mp4", title := some "A" }] ∧
      ∀ c ∈ callsOf tr, c.timeoutSec = some 300 ∧
        c.args[5]? = some "--format" ∧
        c.args[6]? = some "best[height<=1080]" :=
  (C3_one_ytdlp_process_per_video "./d" "UA" "tok" (fun _ => 0)
    (fun _ => Outcome.exit 0) []
    [{ url := some "http://x/a.mp4", title := some "A" }] []
    (by decide)).2.1

/-- C5: a failed (non-zero exit) or timed-out downloader invocation is
caught inside its loop iteration and increments the failure counter, and
the loop proceeds: on both counted paths every (non-skipped) record is
still dispatched, successful + failed equals the number of dispatched
records, and failed equals the number of failing outcomes. -/
theorem C5_failure_counted_loop_continues (d : String) (resg : Nat → Nat)
    (vsg : List PVideo) (resi : Nat → Outcome) (vsi : List JVideo)
    (hvsi : ∀ v ∈ vsi, v.url.isSome) :
    ((download_all_videos d resg vsg).2.1 +
        (download_all_videos d resg vsg).2.2 = vsg.length ∧
      (download_all_videos d resg vsg).2.2 = countFailN resg 0 vsg.length ∧
      (callsOf (download_all_videos d resg vsg).1).length = vsg.length) ∧
    (∃ tr s f, download_collected_videos resi vsi = .ok (tr, s, f) ∧
      s + f = nonLessonCount vsi ∧
      f = countFailO resi 0 (nonLessonCount vsi) ∧
      (callsOf tr).length = nonLessonCount vsi) := by
  refine ⟨⟨(gcdLoop_counts d resg vsg 0).1, (gcdLoop_counts d resg vsg 0).2, ?_⟩, ?_⟩
  · rw [show (download_all_videos d resg vsg).1 = (gcdLoop d resg 0 vsg).1
      from rfl, gcdLoop_calls d resg vsg 0, List.length_map]
  · rcases interLoop_spec resi vsi 1 0 hvsi with
      ⟨tr, s, f, he, hsum, hf, _, hlen, _⟩
    exact ⟨tr, s, f, he, hsum, hf, hlen⟩

theorem C5_failure_counted_loop_continues_witness :
    ∃ tr s f, download_collected_videos
        (fun k => if k = 0 then Outcome.exit 1 else Outcome.exit 0)
        [{ url := some "http://u1", title := some "A" },
         { url := some "http://u2" }] = .ok (tr, s, f) ∧
      s + f = nonLessonCount
        [{ url := some "http://u1", title := some "A" },
         { url := some "http://u2" }] ∧
      f = countFailO (fun k => if k = 0 then Outcome.exit 1 else Outcome.exit 0)
        0 (nonLessonCount
          [{ url := some "http://u1", title := some "A" },
           { url := some "http://u2" }]) ∧
      (callsOf tr).length = nonLessonCount
        [{ url := some "http://u1", title := some "A" },
         { url := some "http://u2" }] :=
  (C5_failure_counted_loop_continues "./d" (fun _ => 0) []
    (fun k => if k = 0 then Outcome.exit 1 else Outcome.exit 0)
    [{ url := some "http://u1", title := some "A" },
     { url := some "http://u2" }] (by decide)).2

theorem nonLessonCount_lt_of_lesson :
    ∀ vs : List JVideo, (∃ v ∈ vs, isLesson v = true) →
      nonLessonCount vs < vs.length := by
  intro vs
  induction vs with
  | nil => rintro ⟨v, hv, _⟩; cases hv
  | cons a rest ih =>
    rintro ⟨v, hv, hles⟩
    rcases List.mem_cons.mp hv with h' | h'
    · subst h'
      rw [nonLessonCount_cons_lesson hles]
      have hle := List.length_filter_le (fun v => !isLesson v) rest
      simp only [nonLessonCount, List.length_cons]
      omega
    · by_cases ha : isLesson a
      · rw [nonLessonCount_cons_lesson ha]
        have hle := List.length_filter_le (fun v => !isLesson v) rest
        simp only [nonLessonCount, List.length_cons]
        omega
      · rw [nonLessonCount_cons_not (by simpa using ha)]
        have := ih ⟨v, h', hles⟩
        simp only [List.length_cons]
        omega

/-- C10: in the interactive loop a 'lesson-link' record is skipped before
any yt-dlp invocation (one invocation per non-lesson record only) and is
counted in neither counter, so with at least one such record the final
summary satisfies successful + failed < number of records. -/
theorem C10_lesson_links_skipped_uncounted (res : Nat → Outcome)
    (vs : List JVideo) (hurl : ∀ v ∈ vs, v.url.isSome)
    (hles : ∃ v ∈ vs, isLesson v = true) :
    ∃ tr s f, download_collected_videos res vs = .ok (tr, s, f) ∧
      s + f = nonLessonCount vs ∧
      (callsOf tr).length = nonLessonCount vs ∧
      s + f < vs.length := by
  rcases interLoop_spec res vs 1 0 hurl with
    ⟨tr, s, f, he, hsum, _, _, hlen, _⟩
  exact ⟨tr, s, f, he, hsum, hlen,
    hsum ▸ nonLessonCount_lt_of_lesson vs hles⟩

theorem C10_lesson_links_skipped_uncounted_witness :
    ∃ tr s f, download_collected_videos (fun _ => Outcome.exit 0)
        [{ url := some "http://l", vtype := some "lesson-link" },
         { url := some "http://v", title := some "A" }] = .ok (tr, s, f) ∧
      s + f = nonLessonCount
        [{ url := some "http://l", vtype := some "lesson-link" },
         { url := some "http://v", title := some "A" }] ∧
      (callsOf tr).length = nonLessonCount
        [{ url := some "http://l", vtype := some "lesson-link" },
         { url := some "http://v", title := some "A" }] ∧
      s + f < 2 :=
  C10_lesson_links_skipped_uncounted (fun _ => Outcome.exit 0)
    [{ url := some "http://l", vtype := some "lesson-link" },
     { url := some "http://v", title := some "A" }]
    (by decide) (by decide)

theorem C9_single_record_one_entry_witness :
    quick_load (.doc [{ url := some "http://x/a.mp4", title := some "A" }])
        .absent =
      .ok (.got [{ url := some "http://x/a.mp4", title := some "A" }]) ∧
    quick_entries [{ url := some "http://x/a.mp4", title := some "A" }] =
      .ok [("http://x/a.mp4", "001-" ++ safeTitle "A")] :=
  C9_single_record_one_entry "http://x/a.mp4" (some "A") .absent
